import Mathlib

set_option maxRecDepth 4000

/-!
Shallow embedding of the Cardinal IR library and its C backend
(crates cardinal_codegen and cardinal_c).  Pure data is translated
structure-for-structure; Rust methods that mutate through mutable
references become functions returning the updated record; code paths
that panic (out-of-bounds indexing, the unsupported-construct case)
are modelled by Option, with none standing for the abort.  The
mutually recursive rendering functions carry a fuel parameter because
the Rust recursion is not structurally terminating on arbitrary data.
-/

namespace CardinalIR

/-- entities.rs: an opaque reference to a Cardinal SSA value, a plain
index (Rust u32, modelled as Nat) into the owning block value table. -/
structure Value where
  id : Nat
deriving DecidableEq

/-- entities.rs: an opaque reference to a Cardinal IR block. -/
structure Block where
  id : Nat
deriving DecidableEq

/-- entities.rs: an opaque reference to a Cardinal variable. -/
structure Variable where
  name : String
deriving DecidableEq

/-- entities.rs: an opaque reference to a Cardinal global variable. -/
structure GlobalVariable where
  name : String
deriving DecidableEq

/-- entities.rs enum Type (renamed, Type is a Lean keyword): plain,
array with isize size (Int; the doc comment of the source says -1
requests an implicitly sized array), or pointer. -/
inductive CType where
  | Plain : CType
  | Array : Int → CType
  | Pointer : CType
deriving DecidableEq

/-- entities.rs enum NamedProperty: basic, static (unsupported by the
C backend), pointer and index properties. -/
inductive NamedProperty where
  | Basic : String → NamedProperty
  | Static : String → NamedProperty
  | Pointer : String → NamedProperty
  | Index : Value → NamedProperty
deriving DecidableEq

/-- entities.rs struct Named: a root name plus a property chain. -/
structure Named where
  name : String
  properties : List NamedProperty
deriving DecidableEq

/-- entities.rs Named::new. -/
def Named.new (name : String) : Named :=
  { name := name, properties := [] }

/-- entities.rs Named::new_props. -/
def Named.new_props (name : String) (properties : List NamedProperty) : Named :=
  { name := name, properties := properties }

/-- Modelled from the spec: the Display implementation for Named lives
in the ir module, which is declared in the codegen lib.rs but absent
from the sources; the spec renders the type-name component of an ABI
type as its name text, so Named displays as its root name here. -/
def Named.display (n : Named) : String :=
  n.name

/-- entities.rs struct AbiType(pub Named, pub Type). -/
def AbiType := Named × CType

/-- Modelled from the spec: AbiParam is referenced by function.rs but
defined in the missing ir module; the emitter reads .0 as the argument
name and .1 as its AbiType, matching the signature description of the
spec (ordered argument ABI types with names). -/
def AbiParam := String × AbiType

/-- instruction.rs enum Opcode: the closed opcode set. -/
inductive Opcode where
  | Add | Sub | Mul | Div | Mod
  | BitAnd | BitOr | BitXor | BitLeft | BitRight | BitNot
  | TestEq | TestNeq | TestGt | TestGtEq | TestLt | TestLtEq
  | Not | Or | And
  | Jmp | Set | Call | Ret
deriving DecidableEq

/-- instruction.rs struct InstructionInfo: opcode plus ordered operand
handles. -/
structure InstructionInfo where
  opcode : Opcode
  arguments : List Value
deriving DecidableEq

/-- entities.rs enum ValueInfo.  The f64 payloads of the float and
double constants are represented by their Display output text, since
no claim depends on float arithmetic; CharConstant is matched by the C
backend (its payload concatenates as a string there) and is listed by
the spec among the literal kinds. -/
inductive ValueInfo where
  | IntegerConstant : Nat → ValueInfo
  | FloatConstant : String → ValueInfo
  | DoubleConstant : String → ValueInfo
  | BooleanConstant : Bool → ValueInfo
  | StringConstant : String → ValueInfo
  | CharConstant : String → ValueInfo
  | Named : CardinalIR.Named → ValueInfo
  | Block : CardinalIR.Block → ValueInfo
  | Instruction : InstructionInfo → ValueInfo
deriving DecidableEq

/-- instruction.rs enum BlockType. -/
inductive BlockType where
  | If : Value → BlockType
  | Basic : BlockType
deriving DecidableEq

/-- instruction.rs struct InstBlock: block type, else chains, value
table, instruction list, import list and nested blocks.  A nested
inductive because InstBlock contains lists of itself. -/
inductive InstBlock where
  | mk : BlockType → List InstBlock → Option InstBlock →
      List ValueInfo → List InstructionInfo → List String →
      List InstBlock → InstBlock

/-- Field accessor for InstBlock.block_type. -/
def InstBlock.block_type : InstBlock → BlockType
  | .mk bt _ _ _ _ _ _ => bt

/-- Field accessor for InstBlock.elses. -/
def InstBlock.elses : InstBlock → List InstBlock
  | .mk _ e _ _ _ _ _ => e

/-- Field accessor for InstBlock.else_block. -/
def InstBlock.else_block : InstBlock → Option InstBlock
  | .mk _ _ e _ _ _ _ => e

/-- Field accessor for InstBlock.values. -/
def InstBlock.values : InstBlock → List ValueInfo
  | .mk _ _ _ v _ _ _ => v

/-- Field accessor for InstBlock.insts. -/
def InstBlock.insts : InstBlock → List InstructionInfo
  | .mk _ _ _ _ i _ _ => i

/-- Field accessor for InstBlock.imports (the import list). -/
def InstBlock.imports : InstBlock → List String
  | .mk _ _ _ _ _ im _ => im

/-- Field accessor for InstBlock.blocks. -/
def InstBlock.blocks : InstBlock → List InstBlock
  | .mk _ _ _ _ _ _ b => b

/-- Replaces the value table, modelling mutation of the values field. -/
def InstBlock.setValues : InstBlock → List ValueInfo → InstBlock
  | .mk a b c _ e f g, v => .mk a b c v e f g

/-- Replaces the instruction list, modelling mutation of insts. -/
def InstBlock.setInsts : InstBlock → List InstructionInfo → InstBlock
  | .mk a b c d _ f g, i => .mk a b c d i f g

/-- Replaces the import list, modelling mutation of imports. -/
def InstBlock.setImports : InstBlock → List String → InstBlock
  | .mk a b c d e _ g, im => .mk a b c d e im g

/-- instruction.rs InstBlock::create_value: issues the next index as a
handle and appends the entry to the value table. -/
def create_value (blk : InstBlock) (value : ValueInfo) : InstBlock × Value :=
  (blk.setValues (blk.values ++ [value]), ⟨blk.values.length⟩)

/-- instruction.rs InstBlock::create_inst: appends an instruction. -/
def create_inst (blk : InstBlock) (inst : InstructionInfo) : InstBlock :=
  blk.setInsts (blk.insts ++ [inst])

/-- instruction.rs InstBlock::require_import: appends the name only if
it is not already present in the import list of the block. -/
def require_import (blk : InstBlock) (name : String) : InstBlock :=
  if blk.imports.contains name then blk else blk.setImports (blk.imports ++ [name])

/-- instbuilder.rs iconst_int. -/
def iconst_int (blk : InstBlock) (value : Nat) : InstBlock × Value :=
  create_value blk (.IntegerConstant value)

/-- instbuilder.rs iconst_float (payload abstracted to display text). -/
def iconst_float (blk : InstBlock) (value : String) : InstBlock × Value :=
  create_value blk (.FloatConstant value)

/-- instbuilder.rs iconst_double (payload abstracted to display text). -/
def iconst_double (blk : InstBlock) (value : String) : InstBlock × Value :=
  create_value blk (.DoubleConstant value)

/-- instbuilder.rs iconst_bool. -/
def iconst_bool (blk : InstBlock) (value : Bool) : InstBlock × Value :=
  create_value blk (.BooleanConstant value)

/-- instbuilder.rs iconst_str. -/
def iconst_str (blk : InstBlock) (value : String) : InstBlock × Value :=
  create_value blk (.StringConstant value)

/-- instbuilder.rs iconst_named. -/
def iconst_named (blk : InstBlock) (name : String) : InstBlock × Value :=
  create_value blk (.Named (Named.new name))

/-- instbuilder.rs iconst_named_props. -/
def iconst_named_props (blk : InstBlock) (name : String)
    (props : List NamedProperty) : InstBlock × Value :=
  create_value blk (.Named (Named.new_props name props))

/-- instbuilder.rs iuse: uses a named reference as a value. -/
def iuse (blk : InstBlock) (named : Named) : InstBlock × Value :=
  create_value blk (.Named named)

/-- instbuilder.rs iadd. -/
def iadd (blk : InstBlock) (l r : Value) : InstBlock × Value :=
  create_value blk (.Instruction ⟨.Add, [l, r]⟩)

/-- instbuilder.rs isub. -/
def isub (blk : InstBlock) (l r : Value) : InstBlock × Value :=
  create_value blk (.Instruction ⟨.Sub, [l, r]⟩)

/-- instbuilder.rs imul. -/
def imul (blk : InstBlock) (l r : Value) : InstBlock × Value :=
  create_value blk (.Instruction ⟨.Mul, [l, r]⟩)

/-- instbuilder.rs idiv. -/
def idiv (blk : InstBlock) (l r : Value) : InstBlock × Value :=
  create_value blk (.Instruction ⟨.Div, [l, r]⟩)

/-- instbuilder.rs imod. -/
def imod (blk : InstBlock) (l r : Value) : InstBlock × Value :=
  create_value blk (.Instruction ⟨.Mod, [l, r]⟩)

/-- instbuilder.rs ibit_and. -/
def ibit_and (blk : InstBlock) (l r : Value) : InstBlock × Value :=
  create_value blk (.Instruction ⟨.BitAnd, [l, r]⟩)

/-- instbuilder.rs ibit_or. -/
def ibit_or (blk : InstBlock) (l r : Value) : InstBlock × Value :=
  create_value blk (.Instruction ⟨.BitOr, [l, r]⟩)

/-- instbuilder.rs ibit_xor. -/
def ibit_xor (blk : InstBlock) (l r : Value) : InstBlock × Value :=
  create_value blk (.Instruction ⟨.BitXor, [l, r]⟩)

/-- instbuilder.rs ibit_not. -/
def ibit_not (blk : InstBlock) (l : Value) : InstBlock × Value :=
  create_value blk (.Instruction ⟨.BitNot, [l]⟩)

/-- instbuilder.rs ibit_left. -/
def ibit_left (blk : InstBlock) (l r : Value) : InstBlock × Value :=
  create_value blk (.Instruction ⟨.BitLeft, [l, r]⟩)

/-- instbuilder.rs ibit_right. -/
def ibit_right (blk : InstBlock) (l r : Value) : InstBlock × Value :=
  create_value blk (.Instruction ⟨.BitRight, [l, r]⟩)

/-- instbuilder.rs itest_eq. -/
def itest_eq (blk : InstBlock) (l r : Value) : InstBlock × Value :=
  create_value blk (.Instruction ⟨.TestEq, [l, r]⟩)

/-- instbuilder.rs itest_neq. -/
def itest_neq (blk : InstBlock) (l r : Value) : InstBlock × Value :=
  create_value blk (.Instruction ⟨.TestNeq, [l, r]⟩)

/-- instbuilder.rs itest_gt. -/
def itest_gt (blk : InstBlock) (l r : Value) : InstBlock × Value :=
  create_value blk (.Instruction ⟨.TestGt, [l, r]⟩)

/-- instbuilder.rs itest_gt_eq. -/
def itest_gt_eq (blk : InstBlock) (l r : Value) : InstBlock × Value :=
  create_value blk (.Instruction ⟨.TestGtEq, [l, r]⟩)

/-- instbuilder.rs itest_lt. -/
def itest_lt (blk : InstBlock) (l r : Value) : InstBlock × Value :=
  create_value blk (.Instruction ⟨.TestLt, [l, r]⟩)

/-- instbuilder.rs itest_lt_eq. -/
def itest_lt_eq (blk : InstBlock) (l r : Value) : InstBlock × Value :=
  create_value blk (.Instruction ⟨.TestLtEq, [l, r]⟩)

/-- instbuilder.rs inot. -/
def inot (blk : InstBlock) (l : Value) : InstBlock × Value :=
  create_value blk (.Instruction ⟨.Not, [l]⟩)

/-- instbuilder.rs ior. -/
def ior (blk : InstBlock) (l r : Value) : InstBlock × Value :=
  create_value blk (.Instruction ⟨.Or, [l, r]⟩)

/-- instbuilder.rs iand. -/
def iand (blk : InstBlock) (l r : Value) : InstBlock × Value :=
  create_value blk (.Instruction ⟨.And, [l, r]⟩)

/-- instbuilder.rs jmp: first materializes a block-valued Value, then
appends a Jmp instruction referencing it.  Returns no handle. -/
def jmp (blk : InstBlock) (block : Block) : InstBlock :=
  let p := create_value blk (.Block block)
  create_inst p.fst ⟨.Jmp, [p.snd]⟩

/-- instbuilder.rs set: appends a Set instruction, no value entry. -/
def set (blk : InstBlock) (k v : Value) : InstBlock :=
  create_inst blk ⟨.Set, [k, v]⟩

/-- instbuilder.rs call: records the Call instruction as a standalone
statement, operand 0 the callee followed by the arguments. -/
def call (blk : InstBlock) (k : Value) (args : List Value) : InstBlock :=
  create_inst blk ⟨.Call, k :: args⟩

/-- instbuilder.rs icall: the same Call instruction surfaced as a
usable value instead of a statement. -/
def icall (blk : InstBlock) (k : Value) (args : List Value) : InstBlock × Value :=
  create_value blk (.Instruction ⟨.Call, k :: args⟩)

/-- instbuilder.rs return_: a Ret instruction carrying one operand. -/
def return_ (blk : InstBlock) (v : Value) : InstBlock :=
  create_inst blk ⟨.Ret, [v]⟩

/-- instbuilder.rs return_none: a Ret instruction with no operands. -/
def return_none (blk : InstBlock) : InstBlock :=
  create_inst blk ⟨.Ret, []⟩

/-- function.rs struct FunctionSignature. -/
structure FunctionSignature where
  arguments : List AbiParam
  returns : AbiType

/-- function.rs FunctionSignature::new: no arguments, void return. -/
def FunctionSignature.new : FunctionSignature :=
  { arguments := [], returns := (Named.new ("void"), CType.Plain) }

/-- function.rs struct Function.  The variables HashMap is modelled as
an association list in iteration order; the field is called vars here
because the word variables is reserved in Lean 4. -/
structure Function where
  vars : List (String × AbiType)
  blocks : List InstBlock
  name : String
  signature : FunctionSignature

/-- function.rs Function::new. -/
def Function.new (name : String) (sig : FunctionSignature) : Function :=
  { name := name, signature := sig, vars := [], blocks := [] }

/-- HashMap::insert modelled on an association list: replace the value
of an existing key in place, otherwise append the pair. -/
def insertAssoc {α : Type} : List (String × α) → String → α → List (String × α)
  | [], k, v => [(k, v)]
  | (k2, v2) :: rest, k, v =>
    if k2 = k then (k, v) :: rest else (k2, v2) :: insertAssoc rest k v

/-- function.rs Function::declare_var: inserts the variable and returns
the Variable handle. -/
def Function.declare_var (f : Function) (name : String) (var_type : AbiType) :
    Function × Variable :=
  ({ f with vars := insertAssoc f.vars name var_type }, ⟨name⟩)

/-- function.rs Function::create_block: appends a fresh basic block and
returns its index handle. -/
def Function.create_block (f : Function) : Function × Block :=
  let block : InstBlock := .mk .Basic [] none [] [] [] []
  ({ f with blocks := f.blocks ++ [block] }, ⟨f.blocks.length⟩)

/-- module.rs struct Module.  Both HashMaps are modelled as association
lists in iteration order. -/
structure Module where
  functions : List (String × Function)
  data : List (String × AbiType)

/-- module.rs Module::new. -/
def Module.new : Module :=
  { functions := [], data := [] }

/-- module.rs Module::declare_function. -/
def Module.declare_function (m : Module) (name : String) : Module :=
  { m with functions := insertAssoc m.functions name (Function.new name FunctionSignature.new) }

/-- module.rs Module::define_function: last write wins on collision. -/
def Module.define_function (m : Module) (func : Function) : Module :=
  { m with functions := insertAssoc m.functions func.name func }

/-- module.rs Module::declare_variable. -/
def Module.declare_variable (m : Module) (name : String) (val_type : AbiType) :
    Module × GlobalVariable :=
  ({ m with data := insertAssoc m.data name val_type }, ⟨name⟩)

/-- Vec::join for strings: the elements separated by the separator. -/
def joinSep (sep : String) : List String → String
  | [] => ""
  | [x] => x
  | x :: xs => x ++ sep ++ joinSep sep xs

mutual

/-- c backend display_value: looks the handle up in the value table of
the block (none models the out-of-bounds panic) and renders the entry;
instruction and named entries recurse. -/
def displayValue : Nat → InstBlock → Value → Option String
  | 0, _, _ => none
  | fuel + 1, blk, val =>
    match blk.values.get? val.id with
    | none => none
    | some (.IntegerConstant b) => some (toString b)
    | some (.FloatConstant b) => some b
    | some (.DoubleConstant b) => some b
    | some (.BooleanConstant b) => some (if b then ("true") else ("false"))
    | some (.StringConstant b) => some ("\x22" ++ b ++ "\x22")
    | some (.CharConstant b) => some ("\x27" ++ b ++ "\x27")
    | some (.Named b) => displayNamed fuel blk b
    | some (.Block b) => some ("block" ++ toString b.id)
    | some (.Instruction b) => displayInstruction fuel blk b

/-- c backend display_named: the root name followed by the rendered
property chain. -/
def displayNamed : Nat → InstBlock → Named → Option String
  | 0, _, _ => none
  | fuel + 1, blk, named => displayProps fuel blk named.name named.properties

/-- The property loop of display_named: appends ".field", "[value]" or
"->field" for each property; a Static property is the fatal
UnsupportedConstruct condition (the Rust code panics), modelled none. -/
def displayProps : Nat → InstBlock → String → List NamedProperty → Option String
  | 0, _, _, _ => none
  | _ + 1, _, acc, [] => some acc
  | fuel + 1, blk, acc, .Basic n :: rest =>
    displayProps fuel blk (acc ++ "." ++ n) rest
  | fuel + 1, blk, acc, .Index n :: rest =>
    match displayValue fuel blk n with
    | none => none
    | some t => displayProps fuel blk (acc ++ "[" ++ t ++ "]") rest
  | fuel + 1, blk, acc, .Pointer n :: rest =>
    displayProps fuel blk (acc ++ "->" ++ n) rest
  | _ + 1, _, _, .Static _ :: _ => none

/-- The shared shape of the binary-operator arms of
display_instruction: operand 0, the operator text, operand 1.  Missing
operands (an out-of-bounds arguments index in Rust) give none. -/
def displayBin : Nat → InstBlock → InstructionInfo → String → Option String
  | 0, _, _, _ => none
  | fuel + 1, blk, inst, op => do
    let a0 ← inst.arguments.get? 0
    let s0 ← displayValue fuel blk a0
    let a1 ← inst.arguments.get? 1
    let s1 ← displayValue fuel blk a1
    some (s0 ++ op ++ s1)

/-- The argument loop of the Call arm of display_instruction: renders
every operand after the callee, in order. -/
def displayArgs : Nat → InstBlock → List Value → Option (List String)
  | 0, _, _ => none
  | _ + 1, _, [] => some []
  | fuel + 1, blk, a :: rest => do
    let s ← displayValue fuel blk a
    let others ← displayArgs fuel blk rest
    some (s :: others)

/-- c backend display_instruction: the fixed opcode-to-syntax table. -/
def displayInstruction : Nat → InstBlock → InstructionInfo → Option String
  | 0, _, _ => none
  | fuel + 1, blk, inst =>
    match inst.opcode with
    | .Add => displayBin fuel blk inst (" + ")
    | .Sub => displayBin fuel blk inst (" - ")
    | .Mul => displayBin fuel blk inst (" * ")
    | .Div => displayBin fuel blk inst (" / ")
    | .Mod => displayBin fuel blk inst (" % ")
    | .BitAnd => displayBin fuel blk inst (" & ")
    | .BitOr => displayBin fuel blk inst (" | ")
    | .BitXor => displayBin fuel blk inst (" ^ ")
    | .BitLeft => displayBin fuel blk inst (" << ")
    | .BitRight => displayBin fuel blk inst (" >> ")
    | .TestEq => displayBin fuel blk inst (" == ")
    | .TestNeq => displayBin fuel blk inst (" != ")
    | .TestGt => displayBin fuel blk inst (" > ")
    | .TestGtEq => displayBin fuel blk inst (" >= ")
    | .TestLt => displayBin fuel blk inst (" < ")
    | .TestLtEq => displayBin fuel blk inst (" <= ")
    | .Or => displayBin fuel blk inst (" || ")
    | .And => displayBin fuel blk inst (" && ")
    | .Set => displayBin fuel blk inst (" = ")
    | .BitNot => do
      let a0 ← inst.arguments.get? 0
      let s0 ← displayValue fuel blk a0
      some ("~" ++ s0)
    | .Not => do
      let a0 ← inst.arguments.get? 0
      let s0 ← displayValue fuel blk a0
      some ("!" ++ s0)
    | .Jmp => do
      let a0 ← inst.arguments.get? 0
      let s0 ← displayValue fuel blk a0
      some ("goto" ++ s0)
    | .Call => do
      let args ← displayArgs fuel blk (inst.arguments.drop 1)
      let a0 ← inst.arguments.get? 0
      let s0 ← displayValue fuel blk a0
      some (s0 ++ "(" ++ joinSep (", ") args ++ ")")
    | .Ret => do
      let a0 ← inst.arguments.get? 0
      let s0 ← displayValue fuel blk a0
      some ("return " ++ s0)

end

/-- c backend display_abitype.  Note the source condition: sizes
strictly greater than -1 render the empty brackets, every other size
(including the -1 implicit-size sentinel) renders inside brackets. -/
def displayAbitype (abitype : AbiType) : String :=
  match abitype.snd with
  | .Plain => abitype.fst.display
  | .Array n =>
    if n > -1 then abitype.fst.display ++ "[]"
    else abitype.fst.display ++ "[" ++ toString n ++ "]"
  | .Pointer => abitype.fst.display ++ "*"

/-- The signature text built at the start of compile_function:
return type, name, and the comma separated typed argument list. -/
def signatureText (func : Function) : String :=
  displayAbitype func.signature.returns ++ " " ++ func.name ++ "(" ++
    joinSep (", ")
      (func.signature.arguments.map fun item =>
        displayAbitype item.snd ++ " " ++ item.fst) ++ ")"

/-- The instruction loop inside the block loop of compile_function:
renders every instruction of the block, in order. -/
def displayInsts (fuel : Nat) (blk : InstBlock) : List InstructionInfo → Option (List String)
  | [] => some []
  | inst :: rest => do
    let s ← displayInstruction fuel blk inst
    let others ← displayInsts fuel blk rest
    some (s :: others)

/-- The block loop of compile_function: for block i, collect the
collected import list and render the label text "blockN: { ... }"
with the instruction renderings joined by a semicolon and newline. -/
def renderBlocks (fuel : Nat) : Nat → List InstBlock → Option (List String × List String)
  | _, [] => some ([], [])
  | i, v :: rest => do
    let body ← displayInsts fuel v v.insts
    let p ← renderBlocks fuel (i + 1) rest
    some (v.imports ++ p.fst,
      ("block" ++ toString i ++ ": \x7b\n" ++ joinSep (";\n") body ++ ";\n\x7d\n") :: p.snd)

/-- c backend compile_function: a zero-block function is only its
signature with no imports; otherwise the body is opened, variable
declarations are hoisted (terminated by one semicolon only when at
least one variable exists), the rendered blocks are joined by
newlines, and the body is closed. -/
def compile_function (fuel : Nat) (func : Function) : Option (String × List String) :=
  let header := signatureText func
  if func.blocks.length = 0 then
    some (header, [])
  else do
    let p ← renderBlocks fuel 0 func.blocks
    let vars := func.vars.map fun var => displayAbitype var.snd ++ " " ++ var.fst
    some (header ++ " \x7b\n" ++ joinSep (";\n") vars ++
      (if vars.length > 0 then ";\n" else "") ++ joinSep ("\n") p.snd ++ "\x7d",
      p.fst)

/-- c backend struct CBackend: the module plus the accumulated import
list (note that emit appends to this field). -/
structure CBackend where
  module : Module
  imports : List String

/-- c backend CBackend::new. -/
def CBackend.new (module : Module) : CBackend :=
  { module := module, imports := [] }

/-- The function loop of emit: collects each compiled function body
and appends each function's imports, in module iteration order. -/
def emitFunctions (fuel : Nat) : List (String × Function) → Option (List String × List String)
  | [] => some ([], [])
  | item :: rest => do
    let res ← compile_function fuel item.snd
    let p ← emitFunctions fuel rest
    some (res.fst :: p.fst, res.snd ++ p.snd)

/-- c backend CBackend::emit: renders one include line per entry of
the accumulated import list, then the function bodies, and returns the
backend with its imports field grown by this emission. -/
def CBackend.emit (fuel : Nat) (b : CBackend) : Option (String × CBackend) := do
  let p ← emitFunctions fuel b.module.functions
  let imps := b.imports ++ p.snd
  let includes := imps.map fun item => "#include <" ++ item ++ ">"
  some (joinSep ("\n") includes ++ "\n" ++ joinSep ("\n") p.fst,
    { b with imports := imps })

/-! Basic lemmas about the InstBlock accessors and updates. -/

@[simp] theorem InstBlock.values_setValues (blk : InstBlock) (v : List ValueInfo) :
    (blk.setValues v).values = v := by cases blk; rfl

@[simp] theorem InstBlock.insts_setValues (blk : InstBlock) (v : List ValueInfo) :
    (blk.setValues v).insts = blk.insts := by cases blk; rfl

@[simp] theorem InstBlock.imports_setValues (blk : InstBlock) (v : List ValueInfo) :
    (blk.setValues v).imports = blk.imports := by cases blk; rfl

@[simp] theorem InstBlock.values_setInsts (blk : InstBlock) (i : List InstructionInfo) :
    (blk.setInsts i).values = blk.values := by cases blk; rfl

@[simp] theorem InstBlock.insts_setInsts (blk : InstBlock) (i : List InstructionInfo) :
    (blk.setInsts i).insts = i := by cases blk; rfl

@[simp] theorem InstBlock.imports_setInsts (blk : InstBlock) (i : List InstructionInfo) :
    (blk.setInsts i).imports = blk.imports := by cases blk; rfl

@[simp] theorem InstBlock.values_setImports (blk : InstBlock) (im : List String) :
    (blk.setImports im).values = blk.values := by cases blk; rfl

@[simp] theorem InstBlock.insts_setImports (blk : InstBlock) (im : List String) :
    (blk.setImports im).insts = blk.insts := by cases blk; rfl

@[simp] theorem InstBlock.imports_setImports (blk : InstBlock) (im : List String) :
    (blk.setImports im).imports = im := by cases blk; rfl

/-! Concrete fixtures used by the claim theorems: small blocks,
functions and modules built through the construction API. -/

/-- The block initializer used by Function::create_block. -/
def emptyBlock : InstBlock := .mk .Basic [] none [] [] [] []

/-- A block that requested the stdio.h import once. -/
def blkStdio : InstBlock := require_import emptyBlock ("stdio.h")

/-- A module with one function main whose two blocks each requested
the stdio.h import. -/
def cexImportModule : Module :=
  { functions := [(("main"),
      { name := "main", signature := FunctionSignature.new, vars := [],
        blocks := [blkStdio, blkStdio] })],
    data := [] }

/-- A module with one function main whose single block requested the
stdio.h import. -/
def oneImportModule : Module :=
  { functions := [(("main"),
      { name := "main", signature := FunctionSignature.new, vars := [],
        blocks := [blkStdio] })],
    data := [] }

/-- A function whose single block holds only the instruction appended
by return_none. -/
def retNoneFn : Function :=
  { name := "main", signature := FunctionSignature.new, vars := [],
    blocks := [return_none emptyBlock] }

/-- A block on which the builder call jmp(block 0) was performed. -/
def jmpBlock : InstBlock := jmp emptyBlock ⟨0⟩

/-- A block holding a named callee f and the two integer constants 1
and 2, for call rendering. -/
def cBlk : InstBlock :=
  .mk .Basic [] none
    [.Named (Named.new ("f")), .IntegerConstant 1, .IntegerConstant 2] [] [] []

/-- A block whose Ret instruction returns a Named value that carries a
static-scope property. -/
def staticBlock : InstBlock :=
  .mk .Basic [] none [.Named (Named.new_props ("x") [.Static ("y")])]
    [⟨.Ret, [⟨0⟩]⟩] [] []

/-- The function wrapping staticBlock. -/
def staticFn : Function :=
  { name := "main", signature := FunctionSignature.new, vars := [],
    blocks := [staticBlock] }

/-- The module wrapping staticFn. -/
def staticModule : Module :=
  { functions := [(("main"), staticFn)], data := [] }

/-- A function with one empty block and no declared variables. -/
def oneBlockFn : Function :=
  { name := "main", signature := FunctionSignature.new, vars := [],
    blocks := [emptyBlock] }

/-- A module wrapping oneBlockFn; it requires no imports. -/
def noImportModule : Module :=
  { functions := [(("main"), oneBlockFn)], data := [] }

/-- A function declared with zero blocks, a bare prototype. -/
def protoFn : Function := Function.new ("main") FunctionSignature.new

/-- Tests whether a property chain holds a static-scope accessor. -/
def hasStatic (props : List NamedProperty) : Bool :=
  props.any fun p => match p with
    | .Static _ => true
    | _ => false

/-- C2: the claim says plain renders as name, pointer as name star,
an array with explicit non-negative size N as name[N] and the -1
sentinel as name[]. The code has the comparison inverted: the sentinel
-1 takes the format branch and renders int[-1], while the explicit
size 3 renders int[]. Plain and pointer agree with the claim. -/
theorem c2_array_condition_inverted :
    displayAbitype (Named.new ("int"), CType.Array (-1)) = ("int[-1]")
    ∧ displayAbitype (Named.new ("int"), CType.Array 3) = ("int[]")
    ∧ displayAbitype (Named.new ("int"), CType.Plain) = ("int")
    ∧ displayAbitype (Named.new ("int"), CType.Pointer) = ("int*") :=
  ⟨rfl, rfl, rfl, rfl⟩

/-- C3: the claim says an instruction built by return_none renders as
a bare return without out-of-bounds access. The code unconditionally
reads operand 0 of a Ret instruction, so on the empty operand list the
lookup fails (the Rust code panics with an index out of bounds,
modelled by none) and the whole function fails to compile. -/
theorem c3_ret_none_reads_operand_zero :
    (return_none emptyBlock).insts = [⟨Opcode.Ret, []⟩]
    ∧ displayInstruction 9 (return_none emptyBlock) ⟨Opcode.Ret, []⟩ = none
    ∧ compile_function 9 retNoneFn = none :=
  ⟨rfl, rfl, rfl⟩

/-- C4: the builder part of the claim holds: jmp appends one
block-valued entry to the value table and then one Jmp instruction
referencing it. The rendering part fails: the code concatenates goto
directly with the target, producing gotoblock0 with no space. -/
theorem c4_goto_missing_space :
    jmpBlock.values = [.Block ⟨0⟩]
    ∧ jmpBlock.insts = [⟨Opcode.Jmp, [⟨0⟩]⟩]
    ∧ displayInstruction 9 jmpBlock ⟨Opcode.Jmp, [⟨0⟩]⟩ = some ("gotoblock0") :=
  ⟨rfl, rfl, rfl⟩

/-- C9: a function whose block list is empty compiles to exactly its
signature text, with no braces, no body, no added semicolon, and an
empty import contribution. -/
theorem c9_zero_block_prototype (fuel : Nat) (func : Function)
    (h : func.blocks = []) :
    compile_function fuel func = some (signatureText func, []) := by
  simp [compile_function, h]

/-- C9 witness: the zero-block function main compiles to its bare
signature and no imports. -/
theorem c9_zero_block_prototype_witness :
    compile_function 9 protoFn = some (signatureText protoFn, []) :=
  c9_zero_block_prototype 9 protoFn rfl

/-- C10: in a function with at least one block and no declared
variables, the compiled text steps from the opening brace directly to
the block0 label: no declaration text and no stray semicolon line is
emitted, because the terminator is appended only when at least one
variable exists. -/
theorem c10_no_vars_no_decl_line (fuel : Nat) (func : Function)
    (txt : String) (imps : List String)
    (h1 : func.vars = [])
    (h2 : func.blocks ≠ [])
    (h3 : compile_function fuel func = some (txt, imps)) :
    ∃ rest, txt = signatureText func ++ " \x7b\nblock0: \x7b\n" ++ rest := by
  obtain ⟨b, bs, hb⟩ := List.exists_cons_of_ne_nil h2
  have hlen : ¬ func.blocks.length = 0 := by
    simp [hb]
  unfold compile_function at h3
  rw [if_neg hlen] at h3
  rw [hb] at h3
  unfold renderBlocks at h3
  cases hbody : displayInsts fuel b b.insts with
  | none => rw [hbody] at h3; simp at h3
  | some body =>
    rw [hbody] at h3
    cases hrest : renderBlocks fuel (0 + 1) bs with
    | none => simp [hrest] at h3
    | some p =>
      simp only [hrest, Option.bind_some, Option.some_bind, Option.bind_eq_bind] at h3
      simp only [h1, List.map_nil, joinSep, List.length_nil, gt_iff_lt,
        Nat.lt_irrefl, if_false, Option.some.injEq, Prod.mk.injEq] at h3
      obtain ⟨htxt, _⟩ := h3
      rw [show (("block" : String) ++ toString 0 ++ (": \x7b\n")) = ("block0: \x7b\n") from rfl] at htxt
      cases hp : p.snd with
      | nil =>
        refine ⟨joinSep (";\n") body ++ (";\n\x7d\n\x7d"), ?_⟩
        rw [← htxt, hp]
        simp only [joinSep, String.append_empty, String.append_assoc]
        rw [show (" \x7b\nblock0: \x7b\n" : String) = (" \x7b\n" ++ "block0: \x7b\n") from rfl,
          show (";\n\x7d\n\x7d" : String) = (";\n\x7d\n" ++ "\x7d") from rfl]
        simp only [String.append_assoc]
      | cons t ts =>
        refine ⟨joinSep (";\n") body ++ (";\n\x7d\n" ++ ("\n" ++ (joinSep ("\n") (t :: ts) ++ "\x7d"))), ?_⟩
        rw [← htxt, hp]
        simp only [joinSep, String.append_empty, String.append_assoc]
        rw [show (" \x7b\nblock0: \x7b\n" : String) = (" \x7b\n" ++ "block0: \x7b\n") from rfl]
        simp only [String.append_assoc]

/-- C10 witness: the one-block variable-free function main compiles to
text that opens its body and immediately shows the block0 label. -/
theorem c10_no_vars_no_decl_line_witness :
    ∃ rest, ("void main() \x7b\nblock0: \x7b\n;\n\x7d\n\x7d") =
      signatureText oneBlockFn ++ " \x7b\nblock0: \x7b\n" ++ rest :=
  c10_no_vars_no_decl_line 9 oneBlockFn
    ("void main() \x7b\nblock0: \x7b\n;\n\x7d\n\x7d") [] rfl
    (by simp [oneBlockFn]) rfl

/-! Failure propagation: a rendering failure inside one instruction of
one block aborts the whole emission with no output, mirroring the
panic behaviour of the Rust code. -/

theorem displayProps_static_none :
    ∀ (props : List NamedProperty) (fuel : Nat) (blk : InstBlock) (acc : String),
      hasStatic props = true → displayProps fuel blk acc props = none := by
  intro props
  induction props with
  | nil => intro fuel blk acc h; simp [hasStatic] at h
  | cons p rest ih =>
    intro fuel blk acc h
    cases fuel with
    | zero => rfl
    | succ fuel =>
      cases p with
      | Basic s =>
        have hr : hasStatic rest = true := by simpa [hasStatic] using h
        exact ih fuel blk _ hr
      | Static s => rfl
      | Pointer s =>
        have hr : hasStatic rest = true := by simpa [hasStatic] using h
        exact ih fuel blk _ hr
      | Index v =>
        have hr : hasStatic rest = true := by simpa [hasStatic] using h
        cases hdv : displayValue fuel blk v with
        | none => simp [displayProps, hdv]
        | some t => simp [displayProps, hdv, ih fuel blk _ hr]

theorem displayInsts_eq_none (fuel : Nat) (blk : InstBlock) :
    ∀ (l : List InstructionInfo) (inst : InstructionInfo), inst ∈ l →
      displayInstruction fuel blk inst = none → displayInsts fuel blk l = none := by
  intro l
  induction l with
  | nil => intro inst h; cases h
  | cons x xs ih =>
    intro inst hmem hnone
    rcases List.mem_cons.mp hmem with h | h
    · subst h; simp [displayInsts, hnone]
    · cases hx : displayInstruction fuel blk x with
      | none => simp [displayInsts, hx]
      | some s => simp [displayInsts, hx, ih inst h hnone]

theorem renderBlocks_eq_none (fuel : Nat) :
    ∀ (blocks : List InstBlock) (blk : InstBlock), blk ∈ blocks →
      displayInsts fuel blk blk.insts = none →
      ∀ i, renderBlocks fuel i blocks = none := by
  intro blocks
  induction blocks with
  | nil => intro blk h; cases h
  | cons v rest ih =>
    intro blk hmem hnone i
    rcases List.mem_cons.mp hmem with h | h
    · subst h; simp [renderBlocks, hnone]
    · cases hv : displayInsts fuel v v.insts with
      | none => simp [renderBlocks, hv]
      | some b => simp [renderBlocks, hv, ih blk h hnone (i + 1)]

theorem compile_function_eq_none (fuel : Nat) (func : Function) (blk : InstBlock)
    (hmem : blk ∈ func.blocks)
    (hnone : displayInsts fuel blk blk.insts = none) :
    compile_function fuel func = none := by
  have hne : func.blocks ≠ [] := List.ne_nil_of_mem hmem
  have hlen : ¬ func.blocks.length = 0 := by
    simpa [List.length_eq_zero] using hne
  simp [compile_function, if_neg hlen,
    renderBlocks_eq_none fuel func.blocks blk hmem hnone 0]

theorem emitFunctions_eq_none (fuel : Nat) :
    ∀ (l : List (String × Function)) (nm : String) (func : Function),
      (nm, func) ∈ l → compile_function fuel func = none →
      emitFunctions fuel l = none := by
  intro l
  induction l with
  | nil => intro nm func h; cases h
  | cons x xs ih =>
    intro nm func hmem hnone
    rcases List.mem_cons.mp hmem with h | h
    · subst h; simp [emitFunctions, hnone]
    · cases hx : compile_function fuel x.snd with
      | none => simp [emitFunctions, hx]
      | some r => simp [emitFunctions, hx, ih nm func h hnone]

/-- C7: a static-scope accessor anywhere in a property chain makes
display_named fail with the fatal UnsupportedConstruct condition for
every block and every recursion budget (it is never rendered and never
dropped), and any instruction of any block of any emitted function
whose rendering fails makes the whole emission produce none: no
partial output exists. -/
theorem c7_static_unsupported :
    (∀ (fuel : Nat) (blk : InstBlock) (n : Named),
      hasStatic n.properties = true → displayNamed fuel blk n = none)
    ∧ (∀ (fuel : Nat) (b : CBackend) (nm : String) (func : Function)
        (blk : InstBlock) (inst : InstructionInfo),
        (nm, func) ∈ b.module.functions → blk ∈ func.blocks →
        inst ∈ blk.insts → displayInstruction fuel blk inst = none →
        CBackend.emit fuel b = none) := by
  constructor
  · intro fuel blk n h
    cases fuel with
    | zero => rfl
    | succ fuel =>
      simp only [displayNamed]
      exact displayProps_static_none n.properties fuel blk n.name h
  · intro fuel b nm func blk inst hf hb hi hnone
    have h1 : displayInsts fuel blk blk.insts = none :=
      displayInsts_eq_none fuel blk blk.insts inst hi hnone
    have h2 : compile_function fuel func = none :=
      compile_function_eq_none fuel func blk hb h1
    have h3 : emitFunctions fuel b.module.functions = none :=
      emitFunctions_eq_none fuel b.module.functions nm func hf h2
    simp [CBackend.emit, h3]

/-- C7 witness: the chain x::y fails to display in the empty block,
and the module whose main returns a static-accessor reference emits
nothing at all. -/
theorem c7_static_unsupported_witness :
    displayNamed 5 emptyBlock (Named.new_props ("x") [.Static ("y")]) = none
    ∧ CBackend.emit 5 (CBackend.new staticModule) = none :=
  ⟨c7_static_unsupported.1 5 emptyBlock (Named.new_props ("x") [.Static ("y")]) rfl,
   c7_static_unsupported.2 5 (CBackend.new staticModule) ("main") staticFn
     staticBlock ⟨.Ret, [⟨0⟩]⟩ (List.Mem.head _) (List.Mem.head _)
     (List.Mem.head _) rfl⟩

/-- C8: a Call instruction with callee k and arguments args renders as
the callee text followed by the argument texts in call order,
separated by comma and space, inside parentheses; the builder call
named call records exactly that instruction as a standalone statement
(no value entry), while icall appends the identical instruction as a
value table entry (no statement), returns the fresh handle, and that
handle renders through the same instruction rendering. -/
theorem c8_call_rendering (fuel : Nat) (blk : InstBlock) (k : Value)
    (args : List Value) (sk : String) (ss : List String)
    (hk : displayValue fuel blk k = some sk)
    (hargs : displayArgs fuel blk args = some ss) :
    displayInstruction (fuel + 1) blk ⟨.Call, k :: args⟩ =
      some (sk ++ "(" ++ joinSep (", ") ss ++ ")")
    ∧ (call blk k args).insts = blk.insts ++ [⟨.Call, k :: args⟩]
    ∧ (call blk k args).values = blk.values
    ∧ (icall blk k args).fst.values = blk.values ++ [.Instruction ⟨.Call, k :: args⟩]
    ∧ (icall blk k args).fst.insts = blk.insts
    ∧ (icall blk k args).snd = ⟨blk.values.length⟩
    ∧ displayValue (fuel + 1) (icall blk k args).fst (icall blk k args).snd =
        displayInstruction fuel (icall blk k args).fst ⟨.Call, k :: args⟩ := by
  refine ⟨?_, ?_, ?_, ?_, ?_, rfl, ?_⟩
  · simp [displayInstruction, hk, hargs]
  · simp [call, create_inst]
  · simp [call, create_inst]
  · simp [icall, create_value]
  · simp [icall, create_value]
  · show displayValue (fuel + 1) (icall blk k args).fst ⟨blk.values.length⟩ = _
    have hget : (icall blk k args).fst.values[blk.values.length]? =
        some (.Instruction ⟨.Call, k :: args⟩) := by
      simp [icall, create_value, List.getElem?_concat_length]
    simp [displayValue, hget]

/-- C8 witness: in a block holding the named callee f and the integer
constants 1 and 2, the Call instruction renders as f(1, 2), while call
and icall append the statement and the value respectively. -/
theorem c8_call_rendering_witness :
    displayInstruction (5 + 1) cBlk ⟨.Call, Value.mk 0 :: [⟨1⟩, ⟨2⟩]⟩ =
      some (("f") ++ "(" ++ joinSep (", ") [("1"), ("2")] ++ ")")
    ∧ (call cBlk ⟨0⟩ [⟨1⟩, ⟨2⟩]).insts = cBlk.insts ++ [⟨.Call, Value.mk 0 :: [⟨1⟩, ⟨2⟩]⟩]
    ∧ (call cBlk ⟨0⟩ [⟨1⟩, ⟨2⟩]).values = cBlk.values
    ∧ (icall cBlk ⟨0⟩ [⟨1⟩, ⟨2⟩]).fst.values =
        cBlk.values ++ [.Instruction ⟨.Call, Value.mk 0 :: [⟨1⟩, ⟨2⟩]⟩]
    ∧ (icall cBlk ⟨0⟩ [⟨1⟩, ⟨2⟩]).fst.insts = cBlk.insts
    ∧ (icall cBlk ⟨0⟩ [⟨1⟩, ⟨2⟩]).snd = ⟨cBlk.values.length⟩
    ∧ displayValue (5 + 1) (icall cBlk ⟨0⟩ [⟨1⟩, ⟨2⟩]).fst (icall cBlk ⟨0⟩ [⟨1⟩, ⟨2⟩]).snd =
        displayInstruction 5 (icall cBlk ⟨0⟩ [⟨1⟩, ⟨2⟩]).fst ⟨.Call, Value.mk 0 :: [⟨1⟩, ⟨2⟩]⟩ :=
  c8_call_rendering 5 cBlk ⟨0⟩ [⟨1⟩, ⟨2⟩] ("f") [("1"), ("2")] rfl rfl

/-! Import collection: the emitter concatenates per-block import lists
without any module-level deduplication. -/

theorem renderBlocks_imports (fuel : Nat) :
    ∀ (blocks : List InstBlock) (i : Nat) (p : List String × List String),
      renderBlocks fuel i blocks = some p →
      p.fst = (blocks.map InstBlock.imports).flatten := by
  intro blocks
  induction blocks with
  | nil =>
    intro i p h
    simp only [renderBlocks, Option.some.injEq] at h
    simp [← h]
  | cons v rest ih =>
    intro i p h
    cases hv : displayInsts fuel v v.insts with
    | none => simp [renderBlocks, hv] at h
    | some body =>
      cases hr : renderBlocks fuel (i + 1) rest with
      | none => simp [renderBlocks, hv, hr] at h
      | some q =>
        simp only [renderBlocks, hv, hr, Option.bind_eq_bind, Option.some_bind,
          Option.some.injEq] at h
        have hq := ih (i + 1) q hr
        simp [← h, hq]

theorem compile_function_imports (fuel : Nat) (func : Function)
    (txt : String) (imps : List String)
    (h : compile_function fuel func = some (txt, imps)) :
    imps = (func.blocks.map InstBlock.imports).flatten := by
  by_cases hb : func.blocks.length = 0
  · have hnil : func.blocks = [] := List.length_eq_zero.mp hb
    unfold compile_function at h
    rw [if_pos hb] at h
    simp only [Option.some.injEq, Prod.mk.injEq] at h
    simp [← h.2, hnil]
  · unfold compile_function at h
    rw [if_neg hb] at h
    cases hp : renderBlocks fuel 0 func.blocks with
    | none => simp [hp] at h
    | some p =>
      simp only [hp, Option.bind_eq_bind, Option.some_bind, Option.some.injEq,
        Prod.mk.injEq] at h
      rw [← h.2]
      exact renderBlocks_imports fuel func.blocks 0 p hp

theorem emitFunctions_imports (fuel : Nat) :
    ∀ (l : List (String × Function)) (p : List String × List String),
      emitFunctions fuel l = some p →
      p.snd = (l.map fun kv => (kv.snd.blocks.map InstBlock.imports).flatten).flatten := by
  intro l
  induction l with
  | nil =>
    intro p h
    simp only [emitFunctions, Option.some.injEq] at h
    simp [← h]
  | cons x xs ih =>
    intro p h
    cases hx : compile_function fuel x.snd with
    | none => simp [emitFunctions, hx] at h
    | some r =>
      cases hr : emitFunctions fuel xs with
      | none => simp [emitFunctions, hx, hr] at h
      | some q =>
        simp only [emitFunctions, hx, hr, Option.bind_eq_bind, Option.some_bind,
          Option.some.injEq] at h
        have h1 := compile_function_imports fuel x.snd r.fst r.snd (by
          rw [hx])
        have h2 := ih q hr
        simp [← h, h1, h2]

/-- C1 amended: require_import deduplicates within one block (a name
already present is not appended, a new name is appended once), but the
emitter concatenates the per-block import lists in function-then-block
order with no module-level deduplication, so a name requested by k
distinct blocks contributes k entries to the emitted include list. -/
theorem c1_per_block_dedup_concatenated_emission :
    (∀ (blk : InstBlock) (nm : String), nm ∈ blk.imports →
      require_import blk nm = blk)
    ∧ (∀ (blk : InstBlock) (nm : String), ¬ nm ∈ blk.imports →
      (require_import blk nm).imports = blk.imports ++ [nm])
    ∧ (∀ (fuel : Nat) (b : CBackend) (s : String) (b2 : CBackend),
      CBackend.emit fuel b = some (s, b2) →
      b2.imports = b.imports ++
        (b.module.functions.map fun kv =>
          (kv.snd.blocks.map InstBlock.imports).flatten).flatten) := by
  refine ⟨?_, ?_, ?_⟩
  · intro blk nm h
    rw [require_import, if_pos (List.elem_iff.mpr h)]
  · intro blk nm h
    rw [require_import, if_neg (fun hc => h (List.elem_iff.mp hc))]
    simp
  · intro fuel b s b2 h
    unfold CBackend.emit at h
    cases hp : emitFunctions fuel b.module.functions with
    | none => simp [hp] at h
    | some p =>
      simp only [hp, Option.bind_eq_bind, Option.some_bind, Option.some.injEq,
        Prod.mk.injEq] at h
      rw [← h.2]
      simp [emitFunctions_imports fuel b.module.functions p hp]

/-- The output text of emitting cexImportModule: the one stdio.h
name requested by each of the two blocks shows up as two separate
include lines. -/
def dupImportOutput : String :=
  "#include <stdio.h>\n#include <stdio.h>\nvoid main() \x7b\nblock0: \x7b\n;\n\x7d\n\nblock1: \x7b\n;\n\x7d\n\x7d"

/-- The backend state returned by emitting cexImportModule. -/
def dupImportBackend : CBackend :=
  { module := cexImportModule, imports := [("stdio.h"), ("stdio.h")] }

/-- C1 counterexample: in the module whose two blocks both requested
stdio.h through require_import, the emitted text contains the line
including stdio.h twice, refuting that each distinct import name
appears as exactly one include line. -/
theorem c1_duplicate_includes_counterexample :
    (CBackend.emit 9 (CBackend.new cexImportModule)).map Prod.fst = some dupImportOutput
    ∧ (CBackend.emit 9 (CBackend.new cexImportModule)).map (fun p => p.snd.imports) =
        some [("stdio.h"), ("stdio.h")]
    ∧ dupImportOutput = ("#include <stdio.h>") ++ ("\n") ++ ("#include <stdio.h>") ++
        ("\nvoid main() \x7b\nblock0: \x7b\n;\n\x7d\n\nblock1: \x7b\n;\n\x7d\n\x7d")
    ∧ dupImportBackend.imports.count ("stdio.h") = 2 :=
  ⟨rfl, rfl, rfl, rfl⟩

/-- C1 witness: requesting stdio.h again on a block that has it is a
no-op, requesting it on a block without it appends it once, and
emitting cexImportModule accumulates the concatenation of the
per-block import lists. -/
theorem c1_per_block_dedup_witness :
    require_import blkStdio ("stdio.h") = blkStdio
    ∧ (require_import emptyBlock ("stdio.h")).imports = emptyBlock.imports ++ [("stdio.h")]
    ∧ dupImportBackend.imports = (CBackend.new cexImportModule).imports ++
        ((CBackend.new cexImportModule).module.functions.map fun kv =>
          (kv.snd.blocks.map InstBlock.imports).flatten).flatten :=
  ⟨c1_per_block_dedup_concatenated_emission.1 blkStdio ("stdio.h") (List.Mem.head _),
   c1_per_block_dedup_concatenated_emission.2.1 emptyBlock ("stdio.h") (List.not_mem_nil _),
   c1_per_block_dedup_concatenated_emission.2.2 9 (CBackend.new cexImportModule)
     dupImportOutput dupImportBackend rfl⟩

/-- The text of the first emission of oneImportModule. -/
def singleImportOutput : String :=
  "#include <stdio.h>\nvoid main() \x7b\nblock0: \x7b\n;\n\x7d\n\x7d"

/-- The text of the second emission of oneImportModule: the import
accumulated by the first emission is rendered again. -/
def doubleImportOutput : String :=
  "#include <stdio.h>\n#include <stdio.h>\nvoid main() \x7b\nblock0: \x7b\n;\n\x7d\n\x7d"

/-- C5 counterexample: emitting oneImportModule twice does not give
byte-identical output: the emit method appends the collected imports
to the backend state, so the second emission renders the stdio.h
include line twice. -/
theorem c5_second_emission_differs :
    (CBackend.emit 9 (CBackend.new oneImportModule)).map Prod.fst = some singleImportOutput
    ∧ ((CBackend.emit 9 (CBackend.new oneImportModule)).bind fun p =>
        CBackend.emit 9 p.snd).map Prod.fst = some doubleImportOutput
    ∧ singleImportOutput ≠ doubleImportOutput :=
  ⟨rfl, rfl, by decide⟩

/-- C5 amended: emission mutates the backend by appending the
collected imports to its import accumulator, so a second emission
repeats every include line; output is byte-identical across two
emissions exactly when the first emission added no imports, in which
case the second emission reproduces the same text and state. -/
theorem c5_emit_idempotent_when_no_imports (fuel : Nat) (b : CBackend)
    (s : String) (b2 : CBackend)
    (h : CBackend.emit fuel b = some (s, b2))
    (h2 : b2.imports = b.imports) :
    CBackend.emit fuel b2 = some (s, b2) := by
  unfold CBackend.emit at h ⊢
  cases hp : emitFunctions fuel b.module.functions with
  | none => rw [hp] at h; simp at h
  | some p =>
    rw [hp] at h
    simp only [Option.bind_eq_bind, Option.some_bind, Option.some.injEq,
      Prod.mk.injEq] at h
    obtain ⟨hs, hb2⟩ := h
    have hnil : p.snd = [] := by
      have h3 : b.imports ++ p.snd = b.imports := by
        rw [← hb2] at h2
        simpa using h2
      exact List.append_cancel_left (h3.trans (List.append_nil b.imports).symm)
    rw [← hb2]
    simp only [hnil, List.append_nil] at hs ⊢
    simp [hp, hs, hnil]

/-- The text emitted for noImportModule: no include line at all, only
the separating newline and the function body. -/
def noImportOutput : String :=
  "\nvoid main() \x7b\nblock0: \x7b\n;\n\x7d\n\x7d"

/-- C5 witness: the module without imports emits identically from the
already-emitted backend state. -/
theorem c5_emit_idempotent_when_no_imports_witness :
    CBackend.emit 9 (⟨noImportModule, []⟩ : CBackend) =
      some (noImportOutput, (⟨noImportModule, []⟩ : CBackend)) :=
  c5_emit_idempotent_when_no_imports 9 (CBackend.new noImportModule)
    noImportOutput (⟨noImportModule, []⟩ : CBackend) rfl rfl

/-! A reified alphabet of the value- and instruction-building calls of
the InstBuilder trait, so that properties of arbitrary call sequences
against one block can be stated. -/

/-- One InstBuilder call with its payload. -/
inductive BuilderCall where
  | iconst_int (value : Nat)
  | iconst_float (value : String)
  | iconst_double (value : String)
  | iconst_bool (value : Bool)
  | iconst_str (value : String)
  | iconst_named (name : String)
  | iconst_named_props (name : String) (props : List NamedProperty)
  | iuse (named : Named)
  | iadd (l r : Value)
  | isub (l r : Value)
  | imul (l r : Value)
  | idiv (l r : Value)
  | imod (l r : Value)
  | ibit_and (l r : Value)
  | ibit_or (l r : Value)
  | ibit_xor (l r : Value)
  | ibit_not (l : Value)
  | ibit_left (l r : Value)
  | ibit_right (l r : Value)
  | itest_eq (l r : Value)
  | itest_neq (l r : Value)
  | itest_gt (l r : Value)
  | itest_gt_eq (l r : Value)
  | itest_lt (l r : Value)
  | itest_lt_eq (l r : Value)
  | inot (l : Value)
  | ior (l r : Value)
  | iand (l r : Value)
  | jmp (block : Block)
  | set (k v : Value)
  | call (k : Value) (args : List Value)
  | icall (k : Value) (args : List Value)
  | return_ (v : Value)
  | return_none

/-- Performs one builder call against a block, returning the updated
block and the handle the call returns, when it returns one. -/
def applyCall (blk : InstBlock) : BuilderCall → InstBlock × Option Value
  | .iconst_int v => ((iconst_int blk v).fst, some (iconst_int blk v).snd)
  | .iconst_float v => ((iconst_float blk v).fst, some (iconst_float blk v).snd)
  | .iconst_double v => ((iconst_double blk v).fst, some (iconst_double blk v).snd)
  | .iconst_bool v => ((iconst_bool blk v).fst, some (iconst_bool blk v).snd)
  | .iconst_str v => ((iconst_str blk v).fst, some (iconst_str blk v).snd)
  | .iconst_named nm => ((iconst_named blk nm).fst, some (iconst_named blk nm).snd)
  | .iconst_named_props nm props =>
      ((iconst_named_props blk nm props).fst, some (iconst_named_props blk nm props).snd)
  | .iuse n => ((iuse blk n).fst, some (iuse blk n).snd)
  | .iadd l r => ((iadd blk l r).fst, some (iadd blk l r).snd)
  | .isub l r => ((isub blk l r).fst, some (isub blk l r).snd)
  | .imul l r => ((imul blk l r).fst, some (imul blk l r).snd)
  | .idiv l r => ((idiv blk l r).fst, some (idiv blk l r).snd)
  | .imod l r => ((imod blk l r).fst, some (imod blk l r).snd)
  | .ibit_and l r => ((ibit_and blk l r).fst, some (ibit_and blk l r).snd)
  | .ibit_or l r => ((ibit_or blk l r).fst, some (ibit_or blk l r).snd)
  | .ibit_xor l r => ((ibit_xor blk l r).fst, some (ibit_xor blk l r).snd)
  | .ibit_not l => ((ibit_not blk l).fst, some (ibit_not blk l).snd)
  | .ibit_left l r => ((ibit_left blk l r).fst, some (ibit_left blk l r).snd)
  | .ibit_right l r => ((ibit_right blk l r).fst, some (ibit_right blk l r).snd)
  | .itest_eq l r => ((itest_eq blk l r).fst, some (itest_eq blk l r).snd)
  | .itest_neq l r => ((itest_neq blk l r).fst, some (itest_neq blk l r).snd)
  | .itest_gt l r => ((itest_gt blk l r).fst, some (itest_gt blk l r).snd)
  | .itest_gt_eq l r => ((itest_gt_eq blk l r).fst, some (itest_gt_eq blk l r).snd)
  | .itest_lt l r => ((itest_lt blk l r).fst, some (itest_lt blk l r).snd)
  | .itest_lt_eq l r => ((itest_lt_eq blk l r).fst, some (itest_lt_eq blk l r).snd)
  | .inot l => ((inot blk l).fst, some (inot blk l).snd)
  | .ior l r => ((ior blk l r).fst, some (ior blk l r).snd)
  | .iand l r => ((iand blk l r).fst, some (iand blk l r).snd)
  | .jmp b => (jmp blk b, none)
  | .set k v => (set blk k v, none)
  | .call k args => (call blk k args, none)
  | .icall k args => ((icall blk k args).fst, some (icall blk k args).snd)
  | .return_ v => (return_ blk v, none)
  | .return_none => (return_none blk, none)

/-- How many value-table entries the call appends: one for every
value-producing call and for jmp, zero for the statement-only calls. -/
def valueAdds : BuilderCall → Nat
  | .set _ _ => 0
  | .call _ _ => 0
  | .return_ _ => 0
  | .return_none => 0
  | _ => 1

/-- How many instruction-list entries the call appends. -/
def instAdds : BuilderCall → Nat
  | .jmp _ => 1
  | .set _ _ => 1
  | .call _ _ => 1
  | .return_ _ => 1
  | .return_none => 1
  | _ => 0

/-- The value operand handles a call consumes. -/
def operandsOf : BuilderCall → List Value
  | .iadd l r => [l, r]
  | .isub l r => [l, r]
  | .imul l r => [l, r]
  | .idiv l r => [l, r]
  | .imod l r => [l, r]
  | .ibit_and l r => [l, r]
  | .ibit_or l r => [l, r]
  | .ibit_xor l r => [l, r]
  | .ibit_not l => [l]
  | .ibit_left l r => [l, r]
  | .ibit_right l r => [l, r]
  | .itest_eq l r => [l, r]
  | .itest_neq l r => [l, r]
  | .itest_gt l r => [l, r]
  | .itest_gt_eq l r => [l, r]
  | .itest_lt l r => [l, r]
  | .itest_lt_eq l r => [l, r]
  | .inot l => [l]
  | .ior l r => [l, r]
  | .iand l r => [l, r]
  | .set k v => [k, v]
  | .call k args => k :: args
  | .icall k args => k :: args
  | .return_ v => [v]
  | _ => []

/-- A call is valid against a block when every value operand it
consumes is in range of the value table. -/
def callValid (blk : InstBlock) (c : BuilderCall) : Bool :=
  (operandsOf c).all fun a => decide (a.id < blk.values.length)

/-- Validity of a call sequence, each call checked against the block
state produced by its predecessors. -/
def seqValid : InstBlock → List BuilderCall → Bool
  | _, [] => true
  | blk, c :: cs => callValid blk c && seqValid (applyCall blk c).fst cs

/-- Runs a call sequence against a block. -/
def runCalls : InstBlock → List BuilderCall → InstBlock
  | blk, [] => blk
  | blk, c :: cs => runCalls (applyCall blk c).fst cs

/-- C6 counterexample: three valid builder calls (two integer
constants and one set) leave only two entries in the value table, not
three, because set appends to the instruction list only. -/
theorem c6_three_calls_two_values_counterexample :
    seqValid emptyBlock
      [.iconst_int 21, .iconst_int 21, .set ⟨0⟩ ⟨1⟩] = true
    ∧ ([.iconst_int 21, .iconst_int 21, .set ⟨0⟩ ⟨1⟩] : List BuilderCall).length = 3
    ∧ (runCalls emptyBlock
        [.iconst_int 21, .iconst_int 21, .set ⟨0⟩ ⟨1⟩]).values.length = 2 :=
  ⟨rfl, rfl, rfl⟩

/-- C6 amended: each builder call appends exactly one value entry
and/or one instruction entry (value-producing calls one value, the
statement calls set, call, return and return-none one instruction, jmp
one of each); every returned handle equals the size of the value table
at issuance; both tables are append-only, so earlier handles are never
invalidated; and over a sequence the value table grows by exactly the
number of value-adding calls, not by the number of calls. -/
theorem c6_append_only_issuance_order :
    (∀ (blk : InstBlock) (c : BuilderCall),
      (applyCall blk c).fst.values.length = blk.values.length + valueAdds c
      ∧ (applyCall blk c).fst.insts.length = blk.insts.length + instAdds c
      ∧ (∀ v, (applyCall blk c).snd = some v → v.id = blk.values.length)
      ∧ blk.values <+: (applyCall blk c).fst.values
      ∧ blk.insts <+: (applyCall blk c).fst.insts)
    ∧ (∀ (blk : InstBlock) (cs : List BuilderCall),
      (runCalls blk cs).values.length = blk.values.length + (cs.map valueAdds).sum
      ∧ blk.values <+: (runCalls blk cs).values
      ∧ blk.insts <+: (runCalls blk cs).insts) := by
  have hstep : ∀ (blk : InstBlock) (c : BuilderCall),
      (applyCall blk c).fst.values.length = blk.values.length + valueAdds c
      ∧ (applyCall blk c).fst.insts.length = blk.insts.length + instAdds c
      ∧ (∀ v, (applyCall blk c).snd = some v → v.id = blk.values.length)
      ∧ blk.values <+: (applyCall blk c).fst.values
      ∧ blk.insts <+: (applyCall blk c).fst.insts := by
    intro blk c
    cases c <;>
      simp [applyCall, iconst_int, iconst_float, iconst_double, iconst_bool,
        iconst_str, iconst_named, iconst_named_props, iuse, iadd, isub, imul,
        idiv, imod, ibit_and, ibit_or, ibit_xor, ibit_not, ibit_left, ibit_right,
        itest_eq, itest_neq, itest_gt, itest_gt_eq, itest_lt, itest_lt_eq, inot,
        ior, iand, jmp, set, call, icall, return_, return_none, create_value,
        create_inst, valueAdds, instAdds, List.prefix_append]
  refine ⟨hstep, ?_⟩
  intro blk cs
  induction cs generalizing blk with
  | nil => simp [runCalls]
  | cons c cs ih =>
    have h1 := hstep blk c
    have h2 := ih (applyCall blk c).fst
    refine ⟨?_, ?_, ?_⟩
    · show (runCalls (applyCall blk c).fst cs).values.length = _
      rw [h2.1, h1.1]
      simp [Nat.add_assoc]
    · exact List.IsPrefix.trans h1.2.2.2.1 h2.2.1
    · exact List.IsPrefix.trans h1.2.2.2.2 h2.2.2

/-- C6 witness: the first integer-constant call on the empty block
grows the value table by one and returns handle 0, the size of the
table at issuance. -/
theorem c6_append_only_issuance_order_witness :
    (applyCall emptyBlock (BuilderCall.iconst_int 21)).fst.values.length =
      emptyBlock.values.length + valueAdds (BuilderCall.iconst_int 21)
    ∧ (Value.mk 0).id = emptyBlock.values.length :=
  ⟨(c6_append_only_issuance_order.1 emptyBlock (BuilderCall.iconst_int 21)).1,
   (c6_append_only_issuance_order.1 emptyBlock (BuilderCall.iconst_int 21)).2.2.1 ⟨0⟩ rfl⟩

end CardinalIR
